import Mathlib

/-!
Verification of the dify-apps-dsl-exporter engine: a shallow embedding of the
bounded-retry executor (`execute_api` in `src/dify_api.py` and the variant in
`src/import.py`), the paginated fetcher (`get_app_list`), the name
deduplicator (`check_uniquename` in `src/main.py` / `src/export.py` and the
variant in `src/delete.py`), and the bulk fan-out units (`delete_app`,
`download_yml_file`) together with the post-fetch control flow of `main`.

HTTP is abstracted by oracles: a status oracle `Nat → Nat` giving the HTTP
status answered to each attempt of one logical call, and a page oracle
`Nat → Page` giving the listing endpoint's response for each page number.
The executor is modelled as a pure function producing the ordered trace of
observable events of one logical call (semaphore acquire/release, each HTTP
attempt with its status, each backoff sleep) plus its terminal result.
-/

namespace DifyExporter

/-- A resource ("app") as the scripts handle it: the Python dicts carry the
server-assigned `id`, the display `name`, and possibly further keys; only
`tags` is modelled as a representative extra field (`none` = key absent). -/
structure AppD where
  id : String
  name : String
  tags : Option (List String) := none
deriving DecidableEq, Repr

/-- One response of the paginated listing endpoint: the `total` field and the
`data` array (`content.get("total", 0)` and `content.get("data", [])`). -/
structure Page where
  total : Nat
  data : List AppD
deriving DecidableEq, Repr

/-- Observable events of one logical `execute_api` call, in program order. -/
inductive Ev where
  | acquire
  | release
  | request (attempt : Nat) (status : Nat)
  | sleep
deriving DecidableEq, Repr

/-- Terminal result of one logical `execute_api` call. -/
inductive ExecResult where
  | ok
  | invalidMethod
  | exhausted
deriving DecidableEq, Repr

def countRequests (tr : List Ev) : Nat :=
  tr.countP (fun e => match e with | Ev.request _ _ => true | _ => false)

def countSleeps (tr : List Ev) : Nat :=
  tr.countP (fun e => match e with | Ev.sleep => true | _ => false)

def countAcquires (tr : List Ev) : Nat :=
  tr.countP (fun e => match e with | Ev.acquire => true | _ => false)

def countReleases (tr : List Ev) : Nat :=
  tr.countP (fun e => match e with | Ev.release => true | _ => false)

/-- `heldDuringSleep tr h = true` iff some sleep event of `tr` happens while
the running count of acquired-minus-released semaphore slots (starting at
`h`) is positive, i.e. while a concurrency slot is held. -/
def heldDuringSleep : List Ev → Nat → Bool
  | [], _ => false
  | Ev.acquire :: tr, h => heldDuringSleep tr (h + 1)
  | Ev.release :: tr, h => heldDuringSleep tr (h - 1)
  | Ev.sleep :: tr, h => decide (0 < h) || heldDuringSleep tr h
  | Ev.request _ _ :: tr, h => heldDuringSleep tr h

/-- `everySleepHeld tr h = true` iff every sleep event of `tr` happens while
a concurrency slot is held (running count starting at `h`). -/
def everySleepHeld : List Ev → Nat → Bool
  | [], _ => true
  | Ev.acquire :: tr, h => everySleepHeld tr (h + 1)
  | Ev.release :: tr, h => everySleepHeld tr (h - 1)
  | Ev.sleep :: tr, h => decide (0 < h) && everySleepHeld tr h
  | Ev.request _ _ :: tr, h => everySleepHeld tr h

/-- Retry loop of `execute_api` in `src/dify_api.py` lines 47-66 (identical
loop in `src/main.py`, `src/delete.py`, `src/export.py` up to the supported
method set; the fullest variant, with DELETE and the 204 case, is modelled).
The loop body runs inside `async with semaphore`; each iteration matches the
method (an unsupported method raises `ValueError`, which escapes the `with`
block — the closing release is emitted by the caller-side unwinding, modelled
as the final `Ev.release` of the trace), sends the request (status given by
the oracle for that attempt index), returns on 200 (or 204 for DELETE), and
otherwise logs and sleeps 0.5 s before the next iteration.  When the loop
exhausts `retries` iterations the `with` block exits (release) and the
function raises the exhausted-retries `Exception`. -/
def execute_api_loop (method : String) (status : Nat → Nat) :
    Nat → Nat → List Ev × ExecResult
  | 0, _ => ([Ev.release], ExecResult.exhausted)
  | n + 1, attempt =>
    if method = "POST" ∨ method = "GET" ∨ method = "DELETE" then
      let s := status attempt
      if s = 200 then ([Ev.request attempt s, Ev.release], ExecResult.ok)
      else if method = "DELETE" ∧ s = 204 then
        ([Ev.request attempt s, Ev.release], ExecResult.ok)
      else
        let r := execute_api_loop method status n (attempt + 1)
        (Ev.request attempt s :: Ev.sleep :: r.1, r.2)
    else ([Ev.release], ExecResult.invalidMethod)

/-- `execute_api` of `src/dify_api.py`: acquires the shared semaphore slot
once (`async with semaphore:` wraps the whole retry loop), then runs the
retry loop.  Returns the event trace of the logical call and its result. -/
def execute_api (method : String) (status : Nat → Nat) (retries : Nat) :
    List Ev × ExecResult :=
  let r := execute_api_loop method status retries 0
  (Ev.acquire :: r.1, r.2)

/-- Retry loop of `execute_api` in `src/import.py` lines 42-59.  Here each
iteration is `try: async with semaphore: ...` — the slot is acquired per
attempt; a non-200 response sleeps inside the `with` block (release after the
sleep); a non-POST method raises `ValueError` inside the `with` block, which
releases the slot and is then caught by the `except` clause, which sleeps and
lets the loop continue; exhausting the loop raises the final `Exception`. -/
def execute_api_import_loop (method : String) (status : Nat → Nat) :
    Nat → Nat → List Ev × ExecResult
  | 0, _ => ([], ExecResult.exhausted)
  | n + 1, attempt =>
    if method = "POST" then
      let s := status attempt
      if s = 200 then
        ([Ev.acquire, Ev.request attempt s, Ev.release], ExecResult.ok)
      else
        let r := execute_api_import_loop method status n (attempt + 1)
        (Ev.acquire :: Ev.request attempt s :: Ev.sleep :: Ev.release :: r.1, r.2)
    else
      let r := execute_api_import_loop method status n (attempt + 1)
      (Ev.acquire :: Ev.release :: Ev.sleep :: r.1, r.2)

/-- `execute_api` of `src/import.py`. -/
def execute_api_import (method : String) (status : Nat → Nat) (retries : Nat) :
    List Ev × ExecResult :=
  execute_api_import_loop method status retries 0

/-- The projection `{"id": app.get("id"), "name": app.get("name")}` applied
to every element of a page's `data` array in `get_app_list`: the resulting
dict holds only the two keys, so `tags` is absent. -/
def app_proj (a : AppD) : AppD :=
  { id := a.id, name := a.name, tags := none }

/-- Iterations of the `while True` loop of `get_app_list`
(`src/dify_api.py` lines 123-142, identically in `src/main.py`,
`src/delete.py`, `src/export.py`) for `page ≥ 2`, after the first iteration
has been unrolled into `get_app_list` below: `app_num` (> 0 here, otherwise
the first iteration already returned) and `max_page_num` are fixed; each
iteration first requests the page (recorded in `reqs`), then breaks when
`page > max_page_num`, else appends the projected page items and moves on. -/
def get_app_list_go (fetch : Nat → Page) (app_num max_page_num : Nat)
    (page : Nat) (acc : List AppD) (reqs : List Nat) :
    (List AppD × Nat) × List Nat :=
  if _h : page > max_page_num then ((acc, app_num), reqs ++ [page])
  else
    get_app_list_go fetch app_num max_page_num (page + 1)
      (acc ++ (fetch page).data.map app_proj) (reqs ++ [page])
termination_by max_page_num + 1 - page
decreasing_by simp_wf; omega

/-- `get_app_list` (`src/dify_api.py` lines 111-144): requests page 1,
reads `total` into `app_num` and computes
`max_page_num = app_num // 30 + (app_num % 30 > 0)` (the page size `limit`
is hard-coded to 30); returns `([], 0)` when `app_num == 0`; otherwise runs
the remaining loop iterations from page 2.  The returned value is the pair
`((app_list, app_num), requested_pages)` — the second component instruments
which page numbers were requested, in order. -/
def get_app_list (fetch : Nat → Page) : (List AppD × Nat) × List Nat :=
  let content := fetch 1
  let app_num := content.total
  let max_page_num := app_num / 30 + (if app_num % 30 > 0 then 1 else 0)
  if app_num = 0 then (([], 0), [1])
  else if 1 > max_page_num then (([], app_num), [1])
  else get_app_list_go fetch app_num max_page_num 2 (content.data.map app_proj) [1]

/-- Models `x['id'].split('-')[0]`: the prefix of the id before its first
hyphen (the whole id when it has no hyphen), written over the character
list so that concrete instances evaluate in the kernel. -/
def id_first_segment (s : String) : String :=
  String.mk (s.data.takeWhile (fun c => !(c == '-')))

/-- State of the `check_uniquename` traversal: the `unique_names` seen-set
(modelled as a list queried by membership), the accumulated `unique_apps`,
and the accumulated `same_app_names` rename log. -/
structure DedupSt where
  unique_names : List String
  unique_apps : List AppD
  same_app_names : List String
deriving DecidableEq, Repr

/-- Loop body of `check_uniquename` in `src/main.py` lines 213-227 (identical
in `src/export.py`): an already-seen name is rebuilt as a fresh dict
`{"id": x['id'], "name": '【same】' + x['name'] + '-' + x['id'].split('-')[0]}`
and logged as `x['name'] + '->' + modify_name`; a first occurrence is
appended unchanged and its name added to the seen-set. -/
def check_uniquename_step (st : DedupSt) (x : AppD) : DedupSt :=
  if x.name ∈ st.unique_names then
    let modify_name := "【same】" ++ x.name ++ "-" ++ id_first_segment x.id
    { st with
      unique_apps := st.unique_apps ++ [{ id := x.id, name := modify_name, tags := none }],
      same_app_names := st.same_app_names ++ [x.name ++ "->" ++ modify_name] }
  else
    { st with
      unique_names := st.unique_names ++ [x.name],
      unique_apps := st.unique_apps ++ [x] }

/-- `check_uniquename` of `src/main.py` / `src/export.py`, returning the
`unique_apps` and `same_app_names` lists it builds. -/
def check_uniquename (apps : List AppD) : List AppD × List String :=
  let st := apps.foldl check_uniquename_step ⟨[], [], []⟩
  (st.unique_apps, st.same_app_names)

/-- Loop body of `check_uniquename` in `src/delete.py` lines 189-198: same
renaming as `check_uniquename_step`, but the log entry is written with the
separator `' -> '`. -/
def check_uniquename_del_step (st : DedupSt) (x : AppD) : DedupSt :=
  if x.name ∈ st.unique_names then
    let modified_name := "【same】" ++ x.name ++ "-" ++ id_first_segment x.id
    { st with
      unique_apps := st.unique_apps ++ [{ id := x.id, name := modified_name, tags := none }],
      same_app_names := st.same_app_names ++ [x.name ++ " -> " ++ modified_name] }
  else
    { st with
      unique_names := st.unique_names ++ [x.name],
      unique_apps := st.unique_apps ++ [x] }

/-- `check_uniquename` of `src/delete.py`. -/
def check_uniquename_del (apps : List AppD) : List AppD × List String :=
  let st := apps.foldl check_uniquename_del_step ⟨[], [], []⟩
  (st.unique_apps, st.same_app_names)

/-- Terminal outcome of one bulk unit of work: `succeeded` / `failed` are
reached inside the unit (a failure caught and logged there); `raised` means
an exception escaped the unit into the `asyncio.gather` join. -/
inductive UnitOutcome where
  | succeeded
  | failed
  | raised
deriving DecidableEq, Repr

/-- `delete_app` (`src/delete.py` lines 151-163): the `DELETE` call runs
inside `try`/`except Exception`, so an executor failure is caught and logged
at this resource; the unit never raises.  The executor's terminal result for
this app's delete call is abstracted by the `exec` oracle. -/
def delete_app (exec : AppD → ExecResult) (app : AppD) : UnitOutcome :=
  match exec app with
  | ExecResult.ok => UnitOutcome.succeeded
  | _ => UnitOutcome.failed

/-- `delete_apps` (`src/delete.py` lines 140-148): one task per app, joined
by `asyncio.gather`. -/
def delete_apps (exec : AppD → ExecResult) (apps : List AppD) :
    List UnitOutcome :=
  apps.map (delete_app exec)

/-- `download_yml_file` (`src/export.py` lines 162-178, same in
`src/main.py`): the export call has no `try`/`except` — an executor failure
escapes the unit. -/
def download_yml_file (exec : AppD → ExecResult) (app : AppD) : UnitOutcome :=
  match exec app with
  | ExecResult.ok => UnitOutcome.succeeded
  | _ => UnitOutcome.raised

/-- `download_yml_files` (`src/export.py` lines 150-159): one task per app,
joined by `asyncio.gather`. -/
def download_yml_files (exec : AppD → ExecResult) (apps : List AppD) :
    List UnitOutcome :=
  apps.map (download_yml_file exec)

/-- `asyncio.gather(*tasks)` with the default `return_exceptions=False`
completes normally iff no unit raised; otherwise the first exception
propagates out of the join. -/
def gather_ok (outs : List UnitOutcome) : Bool :=
  !(outs.contains UnitOutcome.raised)

/-- Outcome of `main` (`src/main.py` lines 199-232 / `src/delete.py` lines
177-202) after `get_app_list` has returned `(app, app_num)`:
`noApps` models the `"No apps found."` early return, `mismatch` the
`"Mismatch in the number of apps."` early return (the consistency fault),
and `ran apps` the run that proceeds to invoke the bulk operation on the
deduplicated `unique_apps`. -/
inductive RunOutcome where
  | noApps
  | mismatch
  | ran (unique_apps : List AppD)
deriving DecidableEq, Repr

/-- Discriminator: does the run outcome invoke a bulk operation? -/
def isRan : RunOutcome → Bool
  | RunOutcome.ran _ => true
  | _ => false

/-- Post-fetch control flow of `main` in `src/main.py` (lines 199-232;
`src/delete.py` is identical): the empty-list check comes first, then the
count-mismatch check, then `check_uniquename` and the bulk fan-out on its
`unique_apps` result. -/
def main_run (app : List AppD) (app_num : Nat) : RunOutcome :=
  if app = [] then RunOutcome.noApps
  else if app.length ≠ app_num then RunOutcome.mismatch
  else RunOutcome.ran (check_uniquename app).1

/-! Concrete oracles used by the witness and counterexample theorems. -/

/-- Status oracle answering HTTP 500 to the first attempt and 200 after. -/
def status500then200 : Nat → Nat := fun i => if i = 0 then 500 else 200

/-- Status oracle of a server that always answers HTTP 500. -/
def statusAll500 : Nat → Nat := fun _ => 500

/-- Listing endpoint reporting one app on one page. -/
def fetchOneApp : Nat → Page := fun _ => ⟨1, [⟨"a1", "Alpha", none⟩]⟩

/-- Listing endpoint reporting `total = 0`. -/
def fetchEmpty : Nat → Page := fun _ => ⟨0, []⟩

/-- Listing endpoint reporting `total = 5` but returning no items: the
fetched count cannot match the reported total. -/
def fetchInconsistent : Nat → Page := fun _ => ⟨5, []⟩

/-- Listing endpoint with `total = 31`: two pages (30 then 1 item). -/
def fetchTwoPages : Nat → Page := fun p =>
  if p = 1 then ⟨31, (List.range 30).map (fun i => ⟨toString i, toString i, none⟩)⟩
  else ⟨31, [⟨"last", "Last", none⟩]⟩

/-- Executor oracle for a 5-app bulk delete where exactly the app with id
`"id3"` always fails (its retries exhaust). -/
def execFailsId3 : AppD → ExecResult := fun a =>
  if a.id = "id3" then ExecResult.exhausted else ExecResult.ok

/-- The 5 apps of the bulk-delete isolation scenario. -/
def fiveApps : List AppD :=
  [⟨"id1", "A", none⟩, ⟨"id2", "B", none⟩, ⟨"id3", "C", none⟩,
   ⟨"id4", "D", none⟩, ⟨"id5", "E", none⟩]

/-! Helper lemmas about the executor trace. -/

/-- The retry-loop trace is a run of request/sleep events closed by the one
`release` emitted when the `async with semaphore` block is exited. -/
theorem execute_api_loop_shape (method : String) (status : Nat → Nat) :
    ∀ n attempt, ∃ body,
      (execute_api_loop method status n attempt).1 = body ++ [Ev.release] ∧
      ∀ e ∈ body, (∃ a s, e = Ev.request a s) ∨ e = Ev.sleep := by
  intro n
  induction n with
  | zero => exact fun attempt => ⟨[], rfl, by simp⟩
  | succ n ih =>
    intro attempt
    by_cases hm : method = "POST" ∨ method = "GET" ∨ method = "DELETE"
    · by_cases h200 : status attempt = 200
      · refine ⟨[Ev.request attempt (status attempt)], ?_, by simp⟩
        simp [execute_api_loop, hm, h200]
      · by_cases h204 : method = "DELETE" ∧ status attempt = 204
        · refine ⟨[Ev.request attempt (status attempt)], ?_, by simp⟩
          simp [execute_api_loop, hm, h200, h204]
        · obtain ⟨body, hb, hmem⟩ := ih (attempt + 1)
          refine ⟨Ev.request attempt (status attempt) :: Ev.sleep :: body, ?_, ?_⟩
          · simp [execute_api_loop, hm, h200, h204, hb]
          · intro e he
            simp only [List.mem_cons] at he
            rcases he with rfl | rfl | he
            · exact Or.inl ⟨attempt, status attempt, rfl⟩
            · exact Or.inr rfl
            · exact hmem e he
    · exact ⟨[], by simp [execute_api_loop, hm], by simp⟩

/-- A request/sleep body followed by the closing release keeps every sleep
under a positive slot count. -/
theorem body_sleeps_held (body : List Ev)
    (hb : ∀ e ∈ body, (∃ a s, e = Ev.request a s) ∨ e = Ev.sleep) :
    ∀ h : Nat, 0 < h → everySleepHeld (body ++ [Ev.release]) h = true := by
  induction body with
  | nil => intro h _; simp [everySleepHeld]
  | cons e body ih =>
    intro h hh
    rcases hb e (by simp) with ⟨a, s, rfl⟩ | rfl
    · simpa [everySleepHeld] using ih (fun e he => hb e (by simp [he])) h hh
    · simpa [everySleepHeld, hh] using ih (fun e he => hb e (by simp [he])) h hh

/-- A request/sleep body contains no acquire and no release events. -/
theorem body_no_slot_events (body : List Ev)
    (hb : ∀ e ∈ body, (∃ a s, e = Ev.request a s) ∨ e = Ev.sleep) :
    countAcquires body = 0 ∧ countReleases body = 0 := by
  constructor
  · refine List.countP_eq_zero.mpr ?_
    intro e he
    rcases hb e he with ⟨a, s, rfl⟩ | rfl <;> simp
  · refine List.countP_eq_zero.mpr ?_
    intro e he
    rcases hb e he with ⟨a, s, rfl⟩ | rfl <;> simp

/-- C1 (counterexample): a logical `execute_api` call that needs two attempts
(500 then 200) acquires the concurrency slot only once — not once per
attempt — and its backoff sleep happens while the slot is held, contradicting
the claim that the slot is released between attempts during the backoff
sleep and never held across it. -/
theorem c1_per_attempt_acquisition_cex :
    1 < countRequests (execute_api "GET" status500then200 3).1 ∧
    countAcquires (execute_api "GET" status500then200 3).1 = 1 ∧
    heldDuringSleep (execute_api "GET" status500then200 3).1 0 = true := by
  decide

/-- C1 (amended): `execute_api` acquires the concurrency slot exactly once
per logical call, as its first action, and releases it exactly once, as its
last action; every backoff sleep of the call happens while the slot is held
(the `async with semaphore` block wraps the whole retry loop). -/
theorem c1_slot_held_across_whole_call (method : String) (status : Nat → Nat)
    (retries : Nat) :
    countAcquires (execute_api method status retries).1 = 1 ∧
    countReleases (execute_api method status retries).1 = 1 ∧
    (execute_api method status retries).1.head? = some Ev.acquire ∧
    (execute_api method status retries).1.getLast? = some Ev.release ∧
    everySleepHeld (execute_api method status retries).1 0 = true := by
  obtain ⟨body, hb, hmem⟩ := execute_api_loop_shape method status retries 0
  obtain ⟨hacq, hrel⟩ := body_no_slot_events body hmem
  have htr : (execute_api method status retries).1
      = Ev.acquire :: (body ++ [Ev.release]) := by
    simp [execute_api, hb]
  rw [htr]
  refine ⟨?_, ?_, rfl, ?_, ?_⟩
  · simp only [countAcquires] at hacq ⊢
    simp [List.countP_cons, List.countP_append, hacq]
  · simp only [countReleases] at hrel ⊢
    simp [List.countP_cons, List.countP_append, hrel]
  · rw [show Ev.acquire :: (body ++ [Ev.release])
        = (Ev.acquire :: body) ++ [Ev.release] from rfl]
    exact List.getLast?_concat _
  · show everySleepHeld (body ++ [Ev.release]) 1 = true
    exact body_sleeps_held body hmem 1 (by omega)

/-- C3 (counterexample): with a server that always answers HTTP 500 and
`retries = 3`, `execute_api` performs 3 attempts and fails exhausted, but it
sleeps 3 times, not 2 — the backoff sleep also runs after the final failed
attempt. -/
theorem c3_two_sleeps_cex :
    (execute_api "GET" statusAll500 3).2 = ExecResult.exhausted ∧
    countRequests (execute_api "GET" statusAll500 3).1 = 3 ∧
    countSleeps (execute_api "GET" statusAll500 3).1 ≠ 2 ∧
    countSleeps (execute_api "GET" statusAll500 3).1 = 3 := by
  decide

/-- C3 (amended): for every supported method, a server that always answers
HTTP 500 makes `execute_api` with `retries = 3` fail exhausted after exactly
3 attempts and exactly 3 backoff sleeps (one after every failed attempt,
including the final one). -/
theorem c3_always500_exhausts_three_sleeps (method : String)
    (status : Nat → Nat)
    (hm : method = "GET" ∨ method = "POST" ∨ method = "DELETE")
    (hs : status = statusAll500) :
    (execute_api method status 3).2 = ExecResult.exhausted ∧
    countRequests (execute_api method status 3).1 = 3 ∧
    countSleeps (execute_api method status 3).1 = 3 := by
  subst hs
  rcases hm with rfl | rfl | rfl <;> decide

/-- C3 (witness): the amended statement at `method = "GET"` and the
always-500 oracle. -/
theorem c3_always500_exhausts_three_sleeps_witness :
    (("GET" : String) = "GET" ∨ ("GET" : String) = "POST"
      ∨ ("GET" : String) = "DELETE") ∧
    statusAll500 = statusAll500 ∧
    ((execute_api "GET" statusAll500 3).2 = ExecResult.exhausted ∧
     countRequests (execute_api "GET" statusAll500 3).1 = 3 ∧
     countSleeps (execute_api "GET" statusAll500 3).1 = 3) :=
  ⟨Or.inl rfl, rfl,
   c3_always500_exhausts_three_sleeps "GET" statusAll500 (Or.inl rfl) rfl⟩

/-- C7: the executor of `src/import.py` called with an unsupported method
(`"GET"`) does not fail immediately with `InvalidMethod`: its per-attempt
`except` clause catches the `ValueError`, sleeps, and retries, so after
`retries = 3` rounds (3 backoff sleeps, no HTTP request ever issued) the
call fails with the exhausted-retries error — the invalid-method failure is
converted into `ExhaustedRetries`, contradicting the claim.  The
`src/dify_api.py` executor does behave as claimed: an unsupported method
(`"PATCH"`) fails with `InvalidMethod` on the first attempt, with no request
and no sleep. -/
theorem c7_import_invalid_method_retried :
    (execute_api_import "GET" statusAll500 3).2 = ExecResult.exhausted ∧
    countSleeps (execute_api_import "GET" statusAll500 3).1 = 3 ∧
    countRequests (execute_api_import "GET" statusAll500 3).1 = 0 ∧
    (execute_api "PATCH" statusAll500 3).2 = ExecResult.invalidMethod ∧
    countRequests (execute_api "PATCH" statusAll500 3).1 = 0 ∧
    countSleeps (execute_api "PATCH" statusAll500 3).1 = 0 := by
  decide

/-! Helper lemmas about the paginated fetcher. -/

/-- Closed form of the loop iterations from any page `≤ max_page_num + 1`:
the items of pages `page .. max_page_num` are appended in order, and every
page from `page` up to and including `max_page_num + 1` is requested (the
final request is the one the loop discards when it breaks). -/
theorem get_app_list_go_spec (fetch : Nat → Page) (app_num max_page_num : Nat) :
    ∀ n page acc reqs, page ≤ max_page_num + 1 → max_page_num + 1 - page = n →
      get_app_list_go fetch app_num max_page_num page acc reqs =
        ((acc ++ (List.range' page n).flatMap
            (fun p => (fetch p).data.map app_proj), app_num),
         reqs ++ List.range' page (n + 1)) := by
  intro n
  induction n with
  | zero =>
    intro page acc reqs h1 h2
    have hgt : page > max_page_num := by omega
    unfold get_app_list_go
    rw [dif_pos hgt]
    simp [List.range'_one]
  | succ n ih =>
    intro page acc reqs h1 h2
    have hle : ¬ page > max_page_num := by omega
    unfold get_app_list_go
    rw [dif_neg hle, ih (page + 1) _ _ (by omega) (by omega)]
    have e1 : List.range' page (n + 1) = page :: List.range' (page + 1) n :=
      List.range'_succ page n 1
    have e2 : List.range' page (n + 2) = page :: List.range' (page + 1) (n + 1) :=
      List.range'_succ page (n + 1) 1
    simp [e1, e2]

/-- Closed form of `get_app_list` when page 1 reports a positive total:
with `mp = total / 30 + (total % 30 > 0)`, the result is the concatenation
of the projected items of pages `1 .. mp` paired with the reported total,
and the requested pages are exactly `1 .. mp + 1`. -/
theorem get_app_list_spec (fetch : Nat → Page) (h : 0 < (fetch 1).total) :
    get_app_list fetch =
      (((List.range' 1 ((fetch 1).total / 30
            + (if (fetch 1).total % 30 > 0 then 1 else 0))).flatMap
          (fun p => (fetch p).data.map app_proj), (fetch 1).total),
       List.range' 1 (((fetch 1).total / 30
            + (if (fetch 1).total % 30 > 0 then 1 else 0)) + 1)) := by
  obtain ⟨k, hk⟩ : ∃ k, (fetch 1).total / 30
      + (if (fetch 1).total % 30 > 0 then 1 else 0) = k + 1 := by
    by_cases hc : (fetch 1).total % 30 > 0
    · exact ⟨(fetch 1).total / 30, by rw [if_pos hc]⟩
    · have h30 : (30 : Nat) ∣ (fetch 1).total := Nat.dvd_of_mod_eq_zero (by omega)
      have h30' : 30 ≤ (fetch 1).total := Nat.le_of_dvd h h30
      have h1 : 1 ≤ (fetch 1).total / 30 := (Nat.one_le_div_iff (by omega)).mpr h30'
      exact ⟨(fetch 1).total / 30 - 1, by rw [if_neg hc]; omega⟩
  have hstep : get_app_list fetch = get_app_list_go fetch (fetch 1).total
      ((fetch 1).total / 30 + (if (fetch 1).total % 30 > 0 then 1 else 0)) 2
      ((fetch 1).data.map app_proj) [1] := by
    simp only [get_app_list]
    rw [if_neg (by omega : ¬ (fetch 1).total = 0),
      if_neg (by omega : ¬ 1 > (fetch 1).total / 30
        + (if (fetch 1).total % 30 > 0 then 1 else 0))]
  rw [hstep, get_app_list_go_spec fetch _ _ k 2 _ _ (by omega) (by omega), hk]
  have e1 : List.range' 1 (k + 1) = 1 :: List.range' 2 k :=
    List.range'_succ 1 k 1
  have e2 : List.range' 1 (k + 1 + 1) = 1 :: List.range' 2 (k + 1) :=
    List.range'_succ 1 (k + 1) 1
  simp [e1, e2]

/-- C4 (counterexample): a listing with `total = 1` (so
`max_page = ceil(1/30) = 1`) makes `get_app_list` request pages 1 and 2 —
page 2 lies beyond `max_page`, contradicting the claim that no page beyond
`max_page` is requested. -/
theorem c4_no_page_beyond_max_cex :
    (get_app_list fetchOneApp).2 = [1, 2] ∧
    (fetchOneApp 1).total / 30
      + (if (fetchOneApp 1).total % 30 > 0 then 1 else 0) = 1 ∧
    (2 : Nat) ∉ List.range' 1 1 := by
  have hs := get_app_list_spec fetchOneApp (by decide)
  refine ⟨?_, by decide, by decide⟩
  rw [hs]
  decide

/-- C4 (amended): for a positive reported total, `get_app_list` requests
exactly the pages `1 .. max_page + 1` (one page past `max_page`, whose
response the loop discards when it breaks) and returns the concatenation of
the projected items of pages `1 .. max_page` in page order, then item order
within the page, paired with the reported total; the page size is the
hard-coded `limit = 30`. -/
theorem c4_pages_requested_and_concatenation (fetch : Nat → Page)
    (h : 0 < (fetch 1).total) :
    get_app_list fetch =
      (((List.range' 1 ((fetch 1).total / 30
            + (if (fetch 1).total % 30 > 0 then 1 else 0))).flatMap
          (fun p => (fetch p).data.map app_proj), (fetch 1).total),
       List.range' 1 (((fetch 1).total / 30
            + (if (fetch 1).total % 30 > 0 then 1 else 0)) + 1)) :=
  get_app_list_spec fetch h

/-- C4 (witness): the amended statement at a two-page listing
(`total = 31`, pages 1 and 2 hold the items, page 3 is the discarded extra
request). -/
theorem c4_pages_requested_and_concatenation_witness :
    0 < (fetchTwoPages 1).total ∧
    get_app_list fetchTwoPages =
      (((List.range' 1 ((fetchTwoPages 1).total / 30
            + (if (fetchTwoPages 1).total % 30 > 0 then 1 else 0))).flatMap
          (fun p => (fetchTwoPages p).data.map app_proj), (fetchTwoPages 1).total),
       List.range' 1 (((fetchTwoPages 1).total / 30
            + (if (fetchTwoPages 1).total % 30 > 0 then 1 else 0)) + 1)) :=
  ⟨by decide, c4_pages_requested_and_concatenation fetchTwoPages (by decide)⟩

/-- C5: when page 1 reports `total = 0`, `get_app_list` returns the empty
collection paired with 0 after requesting only page 1 (not an error), and
the run takes the `"No apps found."` early return — no bulk operation is
invoked on any resource. -/
theorem c5_total_zero_no_bulk (fetch : Nat → Page) (h : (fetch 1).total = 0) :
    get_app_list fetch = (([], 0), [1]) ∧
    main_run (get_app_list fetch).1.1 (get_app_list fetch).1.2
      = RunOutcome.noApps ∧
    isRan (main_run (get_app_list fetch).1.1 (get_app_list fetch).1.2)
      = false := by
  have hgl : get_app_list fetch = (([], 0), [1]) := by
    simp only [get_app_list]
    rw [if_pos h]
  refine ⟨hgl, ?_, ?_⟩ <;> rw [hgl] <;> simp [main_run, isRan]

/-- C5 (witness): the statement at the empty listing oracle. -/
theorem c5_total_zero_no_bulk_witness :
    (fetchEmpty 1).total = 0 ∧
    (get_app_list fetchEmpty = (([], 0), [1]) ∧
     main_run (get_app_list fetchEmpty).1.1 (get_app_list fetchEmpty).1.2
       = RunOutcome.noApps ∧
     isRan (main_run (get_app_list fetchEmpty).1.1 (get_app_list fetchEmpty).1.2)
       = false) :=
  ⟨rfl, c5_total_zero_no_bulk fetchEmpty rfl⟩

/-- C6 (counterexample): a run whose listing reports `total = 5` but whose
pages contain no items fetches an empty collection — the count mismatches
the total, yet the run aborts through the `"No apps found."` branch, not
with the consistency fault, because `main` checks emptiness before the
count: the claim that every such run aborts with a consistency fault is
false. -/
theorem c6_consistency_fault_cex :
    (get_app_list fetchInconsistent).1.1.length
      ≠ (get_app_list fetchInconsistent).1.2 ∧
    main_run (get_app_list fetchInconsistent).1.1
      (get_app_list fetchInconsistent).1.2 = RunOutcome.noApps ∧
    main_run (get_app_list fetchInconsistent).1.1
      (get_app_list fetchInconsistent).1.2 ≠ RunOutcome.mismatch := by
  have hs := get_app_list_spec fetchInconsistent (by decide)
  rw [hs]
  decide

/-- C6 (amended): whenever the fetched count differs from the reported
total, the run aborts before any bulk operation is started; it aborts with
the consistency fault (`mismatch`) whenever the fetched collection is
non-empty, and through the `"No apps found."` report when it is empty. -/
theorem c6_mismatch_aborts_before_bulk (app : List AppD) (app_num : Nat)
    (h : app.length ≠ app_num) :
    isRan (main_run app app_num) = false ∧
    (app ≠ [] → main_run app app_num = RunOutcome.mismatch) ∧
    (main_run app app_num = RunOutcome.mismatch
      ∨ main_run app app_num = RunOutcome.noApps) := by
  by_cases he : app = []
  · subst he
    simp [main_run, isRan]
  · simp [main_run, he, h, isRan]

/-- C6 (witness): the amended statement at a one-element collection whose
reported total is 3. -/
theorem c6_mismatch_aborts_before_bulk_witness :
    ([(⟨"w6", "W", none⟩ : AppD)].length ≠ 3) ∧
    (isRan (main_run [(⟨"w6", "W", none⟩ : AppD)] 3) = false ∧
     ([(⟨"w6", "W", none⟩ : AppD)] ≠ [] →
       main_run [(⟨"w6", "W", none⟩ : AppD)] 3 = RunOutcome.mismatch) ∧
     (main_run [(⟨"w6", "W", none⟩ : AppD)] 3 = RunOutcome.mismatch
       ∨ main_run [(⟨"w6", "W", none⟩ : AppD)] 3 = RunOutcome.noApps)) :=
  ⟨by decide, c6_mismatch_aborts_before_bulk [⟨"w6", "W", none⟩] 3 (by decide)⟩

/-! Helper lemmas about the deduplicator. -/

/-- The seen-set evolution of the `check_uniquename` traversal depends only
on the initial seen-set, and the `unique_apps` / `same_app_names`
accumulators only ever grow by appending what the traversal itself
produces. -/
theorem check_uniquename_foldl_decomp (l : List AppD) :
    ∀ (seen : List String) (u : List AppD) (s : List String),
      l.foldl check_uniquename_step ⟨seen, u, s⟩ =
        ⟨(l.foldl check_uniquename_step ⟨seen, [], []⟩).unique_names,
         u ++ (l.foldl check_uniquename_step ⟨seen, [], []⟩).unique_apps,
         s ++ (l.foldl check_uniquename_step ⟨seen, [], []⟩).same_app_names⟩ := by
  induction l with
  | nil => intro seen u s; simp
  | cons x l ih =>
    intro seen u s
    simp only [List.foldl_cons]
    by_cases hx : x.name ∈ seen
    · obtain ⟨rx, hrx⟩ :
          ∃ rx : AppD, rx = ⟨x.id, "【same】" ++ x.name ++ "-" ++ id_first_segment x.id, none⟩ :=
        ⟨_, rfl⟩
      obtain ⟨mx, hmx⟩ :
          ∃ mx : String,
            mx = x.name ++ "->" ++ ("【same】" ++ x.name ++ "-" ++ id_first_segment x.id) :=
        ⟨_, rfl⟩
      rw [show check_uniquename_step ⟨seen, u, s⟩ x = ⟨seen, u ++ [rx], s ++ [mx]⟩
          from by simp [check_uniquename_step, hx, hrx, hmx],
        show check_uniquename_step ⟨seen, [], []⟩ x = ⟨seen, [rx], [mx]⟩
          from by simp [check_uniquename_step, hx, hrx, hmx]]
      rw [ih seen (u ++ [rx]) (s ++ [mx]), ih seen [rx] [mx]]
      simp
    · rw [show check_uniquename_step ⟨seen, u, s⟩ x =
          ⟨seen ++ [x.name], u ++ [x], s⟩
          from by simp [check_uniquename_step, hx],
        show check_uniquename_step ⟨seen, [], []⟩ x =
          ⟨seen ++ [x.name], [x], []⟩
          from by simp [check_uniquename_step, hx]]
      rw [ih (seen ++ [x.name]) (u ++ [x]) s, ih (seen ++ [x.name]) [x] []]
      simp

/-- Every traversal step appends exactly one element to `unique_apps`. -/
theorem check_uniquename_foldl_length (l : List AppD) :
    ∀ st : DedupSt,
      (l.foldl check_uniquename_step st).unique_apps.length
        = st.unique_apps.length + l.length := by
  induction l with
  | nil => intro st; simp
  | cons x l ih =>
    intro st
    simp only [List.foldl_cons]
    rw [ih]
    by_cases hx : x.name ∈ st.unique_names <;> simp [check_uniquename_step, hx] <;> omega

/-- A traversal over names disjoint from the seen-set and pairwise distinct
appends everything unchanged and logs nothing. -/
theorem check_uniquename_del_foldl_nodup (l : List AppD) :
    ∀ (seen : List String) (u : List AppD) (s : List String),
      (∀ a ∈ l, a.name ∉ seen) → (l.map AppD.name).Nodup →
      l.foldl check_uniquename_del_step ⟨seen, u, s⟩ =
        ⟨seen ++ l.map AppD.name, u ++ l, s⟩ := by
  induction l with
  | nil => intro seen u s _ _; simp
  | cons x l ih =>
    intro seen u s hns hnd
    simp only [List.foldl_cons]
    have hx : x.name ∉ seen := hns x (by simp)
    rw [show check_uniquename_del_step ⟨seen, u, s⟩ x = ⟨seen ++ [x.name], u ++ [x], s⟩
        from by simp [check_uniquename_del_step, hx]]
    have hnotl : x.name ∉ l.map AppD.name := (List.nodup_cons.mp (by simpa using hnd)).1
    rw [ih (seen ++ [x.name]) (u ++ [x]) s ?_ ((List.nodup_cons.mp (by simpa using hnd)).2)]
    · simp
    · intro a ha
      simp only [List.mem_append, List.mem_singleton]
      rintro (h | h)
      · exact hns a (by simp [ha]) h
      · exact hnotl (h ▸ List.mem_map_of_mem AppD.name ha)

/-- The output element of `check_uniquename` at the position of `x` in
`l1 ++ x :: l2`: the rebuilt two-field dict when `x.name` was already seen
after traversing `l1`, and `x` itself (all fields intact) otherwise; in the
collided case the rename log contains the `original->synthesized` entry. -/
theorem check_uniquename_at_index (l1 : List AppD) (x : AppD) (l2 : List AppD) :
    (check_uniquename (l1 ++ x :: l2)).1[l1.length]? =
      some (if x.name ∈ (l1.foldl check_uniquename_step ⟨[], [], []⟩).unique_names
        then ⟨x.id, "【same】" ++ x.name ++ "-" ++ id_first_segment x.id, none⟩
        else x) ∧
    (x.name ∈ (l1.foldl check_uniquename_step ⟨[], [], []⟩).unique_names →
      (x.name ++ "->" ++ ("【same】" ++ x.name ++ "-" ++ id_first_segment x.id))
        ∈ (check_uniquename (l1 ++ x :: l2)).2) := by
  obtain ⟨st1, hst1⟩ :
      ∃ st1 : DedupSt, st1 = l1.foldl check_uniquename_step ⟨[], [], []⟩ := ⟨_, rfl⟩
  rw [← hst1]
  have hlen : st1.unique_apps.length = l1.length := by
    rw [hst1, check_uniquename_foldl_length]
    simp
  have hsplit : (l1 ++ x :: l2).foldl check_uniquename_step ⟨[], [], []⟩
      = l2.foldl check_uniquename_step (check_uniquename_step st1 x) := by
    rw [List.foldl_append, ← hst1, List.foldl_cons]
  by_cases hx : x.name ∈ st1.unique_names
  · obtain ⟨rx, hrx⟩ :
        ∃ rx : AppD,
          rx = ⟨x.id, "【same】" ++ x.name ++ "-" ++ id_first_segment x.id, none⟩ :=
      ⟨_, rfl⟩
    obtain ⟨mx, hmx⟩ :
        ∃ mx : String,
          mx = x.name ++ "->" ++ ("【same】" ++ x.name ++ "-" ++ id_first_segment x.id) :=
      ⟨_, rfl⟩
    have hstep : check_uniquename_step st1 x
        = ⟨st1.unique_names, st1.unique_apps ++ [rx], st1.same_app_names ++ [mx]⟩ := by
      simp [check_uniquename_step, hx, hrx, hmx]
    have hdec := check_uniquename_foldl_decomp l2 st1.unique_names
      (st1.unique_apps ++ [rx]) (st1.same_app_names ++ [mx])
    constructor
    · simp only [check_uniquename]
      rw [hsplit, hstep, hdec, if_pos hx, ← hrx]
      show ((st1.unique_apps ++ [rx])
          ++ (l2.foldl check_uniquename_step ⟨st1.unique_names, [], []⟩).unique_apps)[l1.length]?
        = some rx
      rw [List.append_assoc, ← hlen, List.getElem?_append_right (le_refl _)]
      simp
    · intro _
      simp only [check_uniquename]
      rw [hsplit, hstep, hdec, ← hmx]
      show mx ∈ (st1.same_app_names ++ [mx])
          ++ (l2.foldl check_uniquename_step ⟨st1.unique_names, [], []⟩).same_app_names
      simp
  · have hstep : check_uniquename_step st1 x
        = ⟨st1.unique_names ++ [x.name], st1.unique_apps ++ [x], st1.same_app_names⟩ := by
      simp [check_uniquename_step, hx]
    have hdec := check_uniquename_foldl_decomp l2 (st1.unique_names ++ [x.name])
      (st1.unique_apps ++ [x]) st1.same_app_names
    refine ⟨?_, fun h => absurd h hx⟩
    simp only [check_uniquename]
    rw [hsplit, hstep, hdec, if_neg hx]
    show ((st1.unique_apps ++ [x])
        ++ (l2.foldl check_uniquename_step ⟨st1.unique_names ++ [x.name], [], []⟩).unique_apps)[l1.length]?
      = some x
    rw [List.append_assoc, ← hlen, List.getElem?_append_right (le_refl _)]
    simp

/-- C8 (counterexample): a duplicate of name `"X"` whose id is the
10-character hyphen-free string `"0123456789"` is renamed using the whole
id (`x['id'].split('-')[0]` is the prefix before the first hyphen), not the
first 8 characters of the id, contradicting the claimed
`"<marker><name>-<first 8 hex chars of id>"` shape. -/
theorem c8_first_eight_hex_cex :
    (check_uniquename [⟨"a", "X", none⟩, ⟨"0123456789", "X", none⟩]).1 =
      [⟨"a", "X", none⟩, ⟨"0123456789", "【same】X-0123456789", none⟩] ∧
    (check_uniquename [⟨"a", "X", none⟩, ⟨"0123456789", "X", none⟩]).2 =
      ["X->【same】X-0123456789"] ∧
    "【same】X-0123456789"
      ≠ "【same】" ++ "X" ++ "-" ++ String.mk ("0123456789".data.take 8) := by
  refine ⟨by decide, by decide, by decide⟩

/-- C8 (amended): a resource whose name equals the name of an earlier
resource in traversal order is assigned the synthesized name
`marker ++ name ++ "-" ++ (prefix of id before its first hyphen)` — for a
canonical UUID id this prefix is exactly the first 8 hex characters — and
one rename entry `original->synthesized` is recorded. -/
theorem c8_duplicate_renamed_and_recorded (l1 : List AppD) (x : AppD)
    (l2 : List AppD)
    (h : x.name ∈ (l1.foldl check_uniquename_step ⟨[], [], []⟩).unique_names) :
    (check_uniquename (l1 ++ x :: l2)).1[l1.length]? =
      some ⟨x.id, "【same】" ++ x.name ++ "-" ++ id_first_segment x.id, none⟩ ∧
    (x.name ++ "->" ++ ("【same】" ++ x.name ++ "-" ++ id_first_segment x.id))
      ∈ (check_uniquename (l1 ++ x :: l2)).2 := by
  have hc := check_uniquename_at_index l1 x l2
  have h1 := hc.1
  rw [if_pos h] at h1
  exact ⟨h1, hc.2 h⟩

/-- C8 (witness): the amended statement at a two-element list whose second
resource duplicates the name `"X"` and carries a UUID-shaped id. -/
theorem c8_duplicate_renamed_and_recorded_witness :
    ((⟨"0123abcd-11", "X", none⟩ : AppD)).name
      ∈ (([(⟨"a", "X", none⟩ : AppD)]).foldl check_uniquename_step
          ⟨[], [], []⟩).unique_names ∧
    ((check_uniquename ([(⟨"a", "X", none⟩ : AppD)]
        ++ (⟨"0123abcd-11", "X", none⟩ : AppD) :: [])).1[
          ([(⟨"a", "X", none⟩ : AppD)]).length]? =
      some ⟨("0123abcd-11" : String), "【same】" ++ "X" ++ "-"
        ++ id_first_segment "0123abcd-11", none⟩ ∧
     ("X" ++ "->" ++ ("【same】" ++ "X" ++ "-" ++ id_first_segment "0123abcd-11"))
       ∈ (check_uniquename ([(⟨"a", "X", none⟩ : AppD)]
           ++ (⟨"0123abcd-11", "X", none⟩ : AppD) :: [])).2) :=
  ⟨by decide,
   c8_duplicate_renamed_and_recorded [⟨"a", "X", none⟩] ⟨"0123abcd-11", "X", none⟩ []
     (by decide)⟩

/-- C9: when all names in the input are pairwise distinct, the
`check_uniquename` of `src/delete.py` returns the input list unchanged —
same resources, same order, same names and ids — and an empty rename log. -/
theorem c9_distinct_names_unchanged (apps : List AppD)
    (h : (apps.map AppD.name).Nodup) :
    check_uniquename_del apps = (apps, []) := by
  simp only [check_uniquename_del]
  rw [check_uniquename_del_foldl_nodup apps [] [] [] (by simp) h]
  simp

/-- C9 (witness): the statement at a two-element list with distinct names. -/
theorem c9_distinct_names_unchanged_witness :
    (([(⟨"i1", "A", none⟩ : AppD), ⟨"i2", "B", none⟩]).map AppD.name).Nodup ∧
    check_uniquename_del [(⟨"i1", "A", none⟩ : AppD), ⟨"i2", "B", none⟩] =
      ([(⟨"i1", "A", none⟩ : AppD), ⟨"i2", "B", none⟩], []) :=
  ⟨by decide, c9_distinct_names_unchanged [⟨"i1", "A", none⟩, ⟨"i2", "B", none⟩]
    (by decide)⟩

/-- C10: the deduplicator passes a non-collided resource through as the very
same record (all fields, `tags` included), but rebuilds a collided resource
as a record holding only the id and the synthesized name — its `tags` field
is absent from the output, as the concrete instance with `tags = some
["keep"] / some ["drop"]` shows. -/
theorem c10_collided_resource_rebuilt (l1 : List AppD) (x : AppD)
    (l2 : List AppD) :
    (check_uniquename (l1 ++ x :: l2)).1[l1.length]? =
      some (if x.name ∈ (l1.foldl check_uniquename_step ⟨[], [], []⟩).unique_names
        then ⟨x.id, "【same】" ++ x.name ++ "-" ++ id_first_segment x.id, none⟩
        else x) ∧
    (check_uniquename
        [⟨"i1", "N", some ["keep"]⟩, ⟨"i2", "N", some ["drop"]⟩]).1 =
      [⟨"i1", "N", some ["keep"]⟩, ⟨"i2", "【same】N-i2", none⟩] :=
  ⟨(check_uniquename_at_index l1 x l2).1, by decide⟩

/-- C2 (counterexample): `download_yml_file` (bulk export) has no
per-resource `try`/`except`: a resource whose export call exhausts its
retries raises out of its unit of work instead of being caught there, and
the `asyncio.gather` join of a two-resource bulk export does not complete
normally — the claim's export half is false. -/
theorem c2_export_failure_not_isolated_cex :
    download_yml_file (fun _ => ExecResult.exhausted) ⟨"e1", "Exp", none⟩
      = UnitOutcome.raised ∧
    gather_ok (download_yml_files
      (fun a => if a.id = "e1" then ExecResult.exhausted else ExecResult.ok)
      [⟨"e1", "Exp", none⟩, ⟨"e2", "F", none⟩]) = false := by
  decide

/-- C2 (amended): bulk delete is failure-isolated — `delete_app` catches any
executor failure and turns it into a terminal `failed` outcome of that
resource's unit, never raising — so every bulk delete maps each resource to
a terminal outcome; in particular the 5-resource bulk delete in which the
resource with id `"id3"` always fails completes with 4 successes and 1
isolated failure, and its `asyncio.gather` join completes normally.  Bulk
export does not have this property (see the counterexample). -/
theorem c2_delete_failure_isolated :
    (∀ (exec : AppD → ExecResult) (apps : List AppD),
      delete_apps exec apps = apps.map (fun a =>
        if exec a = ExecResult.ok then UnitOutcome.succeeded
        else UnitOutcome.failed)) ∧
    delete_apps execFailsId3 fiveApps =
      [UnitOutcome.succeeded, UnitOutcome.succeeded, UnitOutcome.failed,
       UnitOutcome.succeeded, UnitOutcome.succeeded] ∧
    gather_ok (delete_apps execFailsId3 fiveApps) = true := by
  refine ⟨?_, by decide, by decide⟩
  intro exec apps
  have hfun : delete_app exec = fun a =>
      (if exec a = ExecResult.ok then UnitOutcome.succeeded
       else UnitOutcome.failed) :=
    funext fun a => by cases h : exec a <;> simp [delete_app, h]
  simp [delete_apps, hfun]

end DifyExporter
